import Mathlib

/-!
Shallow embedding of `src/console_char.c` (kmscon console-character /
glyph-cache subsystem) and verification of the specification's claims
about it.

Bytes are modelled as `Nat` values (a byte is a value `< 256`; where the
C code's `char` signedness matters this is made explicit).  C `unsigned
int` / `guint` arithmetic is modelled in `Nat` with explicit `% 2^32`,
and `int` arithmetic in `Int` with explicit wrapping where a value is
stored into an unsigned field.  Fallible C functions (returning `int`
error codes) become `Except Err _`; functions that mutate a buffer in
place and return an error code become state-passing functions returning
the result code together with the post-state, so that "the buffer is
unchanged on failure" is a provable statement rather than an artifact of
the embedding.
-/

set_option autoImplicit false

/-- Error codes used by `console_char.c` (negated errno values in C). -/
inductive Err where
  | EINVAL
  | ENOMEM
  | EFAULT
  deriving DecidableEq, Repr

/-- Spec name: `InvalidArgument` is `-EINVAL`. -/
def InvalidArgument : Err := Err.EINVAL

/-- Spec name: `OutOfMemory` is `-ENOMEM`. -/
def OutOfMemory : Err := Err.ENOMEM

/-- Spec name: `ShapingFailure` is `-EFAULT` (measure_width with zero usable
glyphs returns `-EFAULT`; the spec groups engine-layout failures here too). -/
def ShapingFailure : Err := Err.EFAULT

/-- Spec name: `UnsupportedState` is `-EFAULT` (the `default:` dispatch case
in `kmscon_font_draw` sets `ret = -EFAULT`). -/
def UnsupportedState : Err := Err.EFAULT

instance decEqExcept {ε α : Type} [DecidableEq ε] [DecidableEq α] :
    DecidableEq (Except ε α)
  | Except.ok a, Except.ok b =>
      if h : a = b then Decidable.isTrue (by rw [h]) else Decidable.isFalse (by simp [h])
  | Except.ok _, Except.error _ => Decidable.isFalse (by simp)
  | Except.error _, Except.ok _ => Decidable.isFalse (by simp)
  | Except.error e, Except.error f =>
      if h : e = f then Decidable.isTrue (by rw [h]) else Decidable.isFalse (by simp [h])

/-- struct kmscon_char: an owned, growable byte buffer.  `buf` models the
heap allocation (`buf.length` is the number of allocated bytes), `size` the
allocation size field, `len` the used length. -/
structure KChar where
  buf : List Nat
  size : Nat
  len : Nat
  deriving DecidableEq, Repr

/-- Well-formedness of a `KChar`: the allocation really has `size` bytes and
the used length fits inside it (true of every buffer the C code builds). -/
def WFChar (ch : KChar) : Prop := ch.buf.length = ch.size ∧ ch.len ≤ ch.size

instance (ch : KChar) : Decidable (WFChar ch) := by
  unfold WFChar
  infer_instance

/-- The byte view of a buffer: the `len` bytes addressed by `buf`
(what `kmscon_char_get_u8` + `kmscon_char_get_len` expose to callers). -/
def charView (ch : KChar) : List Nat := ch.buf.take ch.len

/-- kmscon_char_get_len. -/
def kmscon_char_get_len (ch : KChar) : Nat := ch.len

/-- memcpy of `src` into `dst` at offset `off` (dst is large enough at every
use site in the embedded code). -/
def listWrite (dst : List Nat) (off : Nat) (src : List Nat) : List Nat :=
  dst.take off ++ src ++ dst.drop (off + src.length)

/-- realloc of an allocation `old` to `n` bytes: the first `min n old.length`
bytes are preserved; grown bytes are modelled as `0` (they are overwritten
before ever being observed through the `len` view in the embedded code). -/
def reallocBuf (old : List Nat) (n : Nat) : List Nat :=
  old.take n ++ List.replicate (n - old.length) 0

/-- KMSCON_CHAR_SIZE: default allocation size of a character buffer. -/
def KMSCON_CHAR_SIZE : Nat := 6

/-- The size actually allocated by new_char for a requested size. -/
def new_char_size (size : Nat) : Nat :=
  if size = 0 then KMSCON_CHAR_SIZE else size

/-- new_char(out, size): allocate a zeroed buffer; a requested size of 0 is
replaced with the default KMSCON_CHAR_SIZE.  `alloc` models whether the
malloc calls succeed. -/
def new_char (alloc : Bool) (size : Nat) : Except Err KChar :=
  if alloc = false then Except.error Err.ENOMEM
  else
    Except.ok { buf := List.replicate (new_char_size size) 0,
                size := new_char_size size, len := 0 }

/-- kmscon_char_new. -/
def kmscon_char_new (alloc : Bool) : Except Err KChar := new_char alloc 0

/-- kmscon_char_set_u8(ch, str, len): replace the content of `ch` with the
byte sequence `s` (the `len` bytes read from the `str` pointer), growing the
allocation to exactly `s.length` via realloc when the current size is
smaller.  `allocOk` models whether that realloc succeeds.  Returns the C
result code together with the post-state of the buffer. -/
def kmscon_char_set_u8 (allocOk : Bool) (ch : KChar) (s : List Nat) :
    Except Err Unit × KChar :=
  if ch.size < s.length then
    if allocOk = false then (Except.error Err.ENOMEM, ch)
    else
      let buf := reallocBuf ch.buf s.length
      (Except.ok (), { buf := listWrite buf 0 s, size := s.length, len := s.length })
  else
    (Except.ok (), { buf := listWrite ch.buf 0 s, size := ch.size, len := s.length })

/-- kmscon_char_append_u8(ch, str, len): append `s` to the content, growing
the allocation to exactly `len + s.length` when needed.  NOTE: the source
returns `-EINVAL` (not `-ENOMEM`) when this realloc fails
(`console_char.c` line 314). -/
def kmscon_char_append_u8 (allocOk : Bool) (ch : KChar) (s : List Nat) :
    Except Err Unit × KChar :=
  let nlen := ch.len + s.length
  if ch.size < nlen then
    if allocOk = false then (Except.error Err.EINVAL, ch)
    else
      let buf := reallocBuf ch.buf nlen
      (Except.ok (), { buf := listWrite buf ch.len s, size := nlen, len := nlen })
  else
    (Except.ok (), { buf := listWrite ch.buf ch.len s, size := ch.size, len := nlen })

/-- kmscon_char_new_u8(out, str, len): `str` is `none` for a NULL pointer,
otherwise `some s` where `s` is the pointed-to byte sequence; `len` is the
separate length argument (the code reads `len` bytes from `str`). -/
def kmscon_char_new_u8 (alloc : Bool) (str : Option (List Nat)) (len : Nat) :
    Except Err KChar :=
  if len = 0 then kmscon_char_new alloc
  else
    match str with
    | Option.none => Except.error Err.EINVAL
    | Option.some s =>
      match new_char alloc len with
      | Except.error e => Except.error e
      | Except.ok ch =>
        match kmscon_char_set_u8 alloc ch (s.take len) with
        | (Except.ok _, ch2) => Except.ok ch2
        | (Except.error e, _) => Except.error e

/-- kmscon_char_dup(out, orig): allocate a fresh buffer of `orig.size` bytes
and copy `orig`'s view into it.  `alloc1` models the malloc inside
`new_char`, `alloc2` the (never needed) realloc inside the copy. -/
def kmscon_char_dup (alloc1 alloc2 : Bool) (orig : KChar) : Except Err KChar :=
  match new_char alloc1 orig.size with
  | Except.error e => Except.error e
  | Except.ok ch =>
    match kmscon_char_set_u8 alloc2 ch (charView orig) with
    | (Except.ok _, ch2) => Except.ok ch2
    | (Except.error e, _) => Except.error e

/-- kmscon_char_reset: length to 0, capacity retained. -/
def kmscon_char_reset (ch : KChar) : KChar := { ch with len := 0 }

/-- One step of the DJB2-style loop `val = val * 33 + ch->buf[i]` where
`val` is a 32-bit `guint` and `ch->buf[i]` has type `char`, which is signed
on the reference platform: a byte `b ≥ 128` is promoted to the negative int
`b - 256` and then converted to unsigned, contributing `b - 256` mod 2^32. -/
def kmscon_char_hash_step (val b : Nat) : Nat :=
  (val * 33 + (if b % 256 < 128 then b % 256 else b % 256 + (2 ^ 32 - 256))) % 2 ^ 32

/-- kmscon_char_hash: fold `kmscon_char_hash_step` over the `len` content
bytes starting from the seed 5381. -/
def kmscon_char_hash (ch : KChar) : Nat :=
  (charView ch).foldl kmscon_char_hash_step 5381

/-- Written from the spec's words, for comparison with the code's hash:
"a DJB2-style rolling hash: seed 5381, h = h*33 + byte over the content"
with `byte` the (unsigned) byte value. -/
def spec_djb2 (s : List Nat) : Nat :=
  s.foldl (fun h b => (h * 33 + b) % 2 ^ 32) 5381

/-- kmscon_char_equal: length check, then `memcmp` of the first `len` bytes
of the two allocations. -/
def kmscon_char_equal (a b : KChar) : Bool :=
  if a.len = b.len then a.buf.take a.len == b.buf.take a.len
  else false

theorem kmscon_char_equal_iff (a b : KChar) :
    kmscon_char_equal a b = true ↔ a.len = b.len ∧ charView a = charView b := by
  unfold kmscon_char_equal charView
  by_cases h : a.len = b.len
  · rw [h]
    simp
  · simp [h]

theorem kmscon_char_equal_congr_right (a b c : KChar)
    (hlen : b.len = c.len) (hview : charView b = charView c) :
    kmscon_char_equal a b = kmscon_char_equal a c := by
  unfold kmscon_char_equal
  rw [hlen]
  by_cases h : a.len = c.len
  · rw [if_pos h, if_pos h, h]
    have h1 : List.take b.len b.buf = List.take c.len c.buf := hview
    rw [hlen] at h1
    rw [h1]
  · rw [if_neg h, if_neg h]

/-- Closed form of a successful `kmscon_char_dup`: a fresh allocation of
`new_char_size orig.size` bytes whose first `orig.len` bytes are `orig`'s
view and whose tail is the zero-fill of the fresh allocation. -/
def dupChar (orig : KChar) : KChar :=
  { buf := charView orig ++ List.replicate (new_char_size orig.size - orig.len) 0,
    size := new_char_size orig.size,
    len := orig.len }

theorem charView_length (ch : KChar) (h : WFChar ch) :
    (charView ch).length = ch.len := by
  obtain ⟨h1, h2⟩ := h
  unfold charView
  rw [List.length_take]
  omega

theorem new_char_size_ge (s : Nat) : s ≤ new_char_size s := by
  unfold new_char_size
  by_cases h : s = 0
  · simp [h]
  · simp [h]

theorem kmscon_char_dup_eq (orig : KChar) (h : WFChar orig) :
    kmscon_char_dup true true orig = Except.ok (dupChar orig) := by
  have hlen : (charView orig).length = orig.len := charView_length orig h
  have hle : orig.len ≤ new_char_size orig.size :=
    Nat.le_trans h.2 (new_char_size_ge orig.size)
  unfold kmscon_char_dup new_char kmscon_char_set_u8
  simp only [if_neg (by simp : ¬ (true = false))]
  have hcond : ¬ (new_char_size orig.size < (charView orig).length) := by
    omega
  simp only [hcond, if_false]
  unfold dupChar listWrite
  simp only [List.take_zero, List.nil_append, Nat.zero_add, List.drop_replicate]
  rw [hlen]

theorem WFChar_dupChar (orig : KChar) (h : WFChar orig) : WFChar (dupChar orig) := by
  have hlen : (charView orig).length = orig.len := charView_length orig h
  have hle : orig.len ≤ new_char_size orig.size :=
    Nat.le_trans h.2 (new_char_size_ge orig.size)
  constructor
  · show (charView orig ++ _).length = new_char_size orig.size
    rw [List.length_append, hlen, List.length_replicate]
    omega
  · exact hle

theorem charView_dupChar (orig : KChar) (h : WFChar orig) :
    charView (dupChar orig) = charView orig := by
  have hlen : (charView orig).length = orig.len := charView_length orig h
  show (charView orig ++ _).take orig.len = charView orig
  rw [← hlen, List.take_left]

theorem dupChar_len (orig : KChar) : (dupChar orig).len = orig.len := rfl

/-- C8: for all byte sequences s, duplicating the CharacterBuffer created
from s yields a buffer whose byte view equals s and whose length equals the
length of s (kmscon_char_dup after kmscon_char_new_u8). -/
theorem C8_dup_of_new_from_bytes (s : List Nat) :
    ∃ ch ch2,
      kmscon_char_new_u8 true (Option.some s) s.length = Except.ok ch ∧
      kmscon_char_dup true true ch = Except.ok ch2 ∧
      charView ch2 = s ∧ kmscon_char_get_len ch2 = s.length := by
  by_cases hs : s.length = 0
  · have hnil : s = [] := List.eq_nil_of_length_eq_zero hs
    subst hnil
    refine ⟨{ buf := List.replicate 6 0, size := 6, len := 0 },
            { buf := List.replicate 6 0, size := 6, len := 0 }, ?_, ?_, ?_, ?_⟩ <;> decide
  · have hch : kmscon_char_new_u8 true (Option.some s) s.length =
        Except.ok { buf := s, size := s.length, len := s.length } := by
      unfold kmscon_char_new_u8 new_char kmscon_char_set_u8
      have hsz : new_char_size s.length = s.length := by
        unfold new_char_size
        simp [hs]
      simp only [if_neg hs, if_neg (by simp : ¬ (true = false)), hsz]
      have htk : s.take s.length = s := List.take_length s
      have hcond : ¬ (s.length < (s.take s.length).length) := by
        rw [htk]
        omega
      simp only [htk, hcond, if_false]
      unfold listWrite
      simp [List.drop_replicate]
    refine ⟨{ buf := s, size := s.length, len := s.length },
            dupChar { buf := s, size := s.length, len := s.length }, hch, ?_, ?_, ?_⟩
    · exact kmscon_char_dup_eq _ ⟨rfl, Nat.le_refl _⟩
    · show charView (dupChar _) = s
      rw [charView_dupChar _ ⟨rfl, Nat.le_refl _⟩]
      show s.take s.length = s
      exact List.take_length s
    · rfl

/-- C10: creating a CharacterBuffer from a byte string of length 0 succeeds
(default capacity KMSCON_CHAR_SIZE, empty content) even when the byte
pointer is NULL; the NULL-pointer check yielding InvalidArgument applies
only when the length is non-zero. -/
theorem C10_new_u8_null_zero_len :
    kmscon_char_new_u8 true Option.none 0 =
      Except.ok { buf := List.replicate KMSCON_CHAR_SIZE 0,
                  size := KMSCON_CHAR_SIZE, len := 0 } ∧
    (∀ len : Nat, ∀ alloc : Bool, 0 < len →
      kmscon_char_new_u8 alloc Option.none len = Except.error InvalidArgument) := by
  constructor
  · decide
  · intro len alloc hlen
    unfold kmscon_char_new_u8
    rw [if_neg (by omega)]
    rfl

/-- Witness for C10 at len = 1. -/
theorem C10_new_u8_null_zero_len_witness :
    kmscon_char_new_u8 true Option.none 1 = Except.error InvalidArgument :=
  C10_new_u8_null_zero_len.2 1 true (by decide)

/-- C3 is a code bug: when the realloc inside kmscon_char_set_u8 fails the
operation fails with OutOfMemory (-ENOMEM) and the buffer is unchanged, as
claimed; but when the realloc inside kmscon_char_append_u8 fails the code
returns -EINVAL (InvalidArgument), not -ENOMEM, though the buffer is still
unchanged.  This theorem evaluates both embedded operations on a failing
allocation. -/
theorem C3_alloc_failure_buffer_unchanged (ch : KChar) (s t : List Nat)
    (hset : ch.size < s.length) (happ : ch.size < ch.len + t.length) :
    kmscon_char_set_u8 false ch s = (Except.error OutOfMemory, ch) ∧
    kmscon_char_append_u8 false ch t = (Except.error Err.EINVAL, ch) ∧
    Err.EINVAL ≠ OutOfMemory := by
  refine ⟨?_, ?_, by decide⟩
  · unfold kmscon_char_set_u8
    rw [if_pos hset]
    rfl
  · unfold kmscon_char_append_u8
    rw [if_pos happ]
    rfl

/-- Witness for C3: a buffer of capacity 1 asked to hold 2 bytes. -/
theorem C3_alloc_failure_buffer_unchanged_witness :
    kmscon_char_set_u8 false { buf := [7], size := 1, len := 1 } [1, 2] =
      (Except.error OutOfMemory, { buf := [7], size := 1, len := 1 }) ∧
    kmscon_char_append_u8 false { buf := [7], size := 1, len := 1 } [1, 2] =
      (Except.error Err.EINVAL, { buf := [7], size := 1, len := 1 }) ∧
    Err.EINVAL ≠ OutOfMemory :=
  C3_alloc_failure_buffer_unchanged { buf := [7], size := 1, len := 1 } [1, 2] [1, 2]
    (by decide) (by decide)

/-- A buffer holding the single byte 0x80 (a UTF-8 continuation byte). -/
def ch80 : KChar := { buf := [128], size := 1, len := 1 }

/-- C9 counterexample: on the content byte 0x80 the code's hash (which folds
C `char` values, signed on the reference platform) differs from the claimed
DJB2 fold over unsigned byte values. -/
theorem C9_counterexample : kmscon_char_hash ch80 ≠ spec_djb2 (charView ch80) := by
  decide

theorem hash_fold_agree_of_ascii (l : List Nat) (acc : Nat)
    (hb : ∀ b ∈ l, b < 128) :
    l.foldl kmscon_char_hash_step acc =
      l.foldl (fun h b => (h * 33 + b) % 2 ^ 32) acc := by
  induction l generalizing acc with
  | nil => rfl
  | cons x xs ih =>
    have hx : x < 128 := hb x (List.mem_cons_self x xs)
    have hstep : kmscon_char_hash_step acc x = (acc * 33 + x) % 2 ^ 32 := by
      unfold kmscon_char_hash_step
      have hx256 : x % 256 = x := Nat.mod_eq_of_lt (by omega)
      rw [hx256, if_pos hx]
    show List.foldl _ (kmscon_char_hash_step acc x) xs = _
    rw [hstep]
    exact ih _ (fun b hbmem => hb b (List.mem_cons_of_mem x hbmem))

/-- C9 amended: the cache's key equality holds exactly when the two buffers
have equal length and byte-for-byte equal content, as claimed; the hash is
the DJB2 fold with each content byte interpreted as a signed char (bytes
≥ 0x80 contribute byte − 256 mod 2^32), which coincides with the claimed
unsigned DJB2 fold exactly on content whose bytes are all < 0x80. -/
theorem C9_hash_and_equality :
    (∀ ch : KChar, (∀ b ∈ charView ch, b < 128) →
        kmscon_char_hash ch = spec_djb2 (charView ch)) ∧
    (∀ a b : KChar, kmscon_char_equal a b = true ↔
        a.len = b.len ∧ charView a = charView b) := by
  constructor
  · intro ch hb
    exact hash_fold_agree_of_ascii (charView ch) 5381 hb
  · exact kmscon_char_equal_iff

/-- Witness for C9 amended, on the ASCII content "A". -/
theorem C9_hash_and_equality_witness :
    kmscon_char_hash { buf := [65], size := 1, len := 1 } =
      spec_djb2 (charView { buf := [65], size := 1, len := 1 }) :=
  C9_hash_and_equality.1 { buf := [65], size := 1, len := 1 } (by decide)

/-- A glyph run inside a shaped line: `glyphs` is the handle of the run's
positioned-glyph string (`tmp->glyphs`), `font` the handle of the font it
was shaped against (`tmp->item->analysis.font`). -/
structure PangoRun where
  glyphs : Nat
  font : Nat
  deriving DecidableEq, Repr

/-- A shaped line: its list of runs (`line->runs`, a GSList). -/
structure PangoLine where
  runs : List PangoRun
  deriving DecidableEq, Repr

/-- Outcome of laying out a byte string in the shaping context: the logical
extents width in pango units (`rec.width`), the baseline in pango units
(`pango_layout_get_baseline`), and line 0 of the layout
(`pango_layout_get_line_readonly(layout, 0)`, `none` for no line). -/
structure PangoLayoutData where
  widthUnits : Int
  baseline : Int
  line0 : Option PangoLine
  deriving DecidableEq, Repr

/-- The external shaping engine as seen by kmscon_glyph_set: whether
`pango_layout_new` succeeds, the layout the engine produces for a given
byte content, and whether `pango_glyph_string_copy` succeeds. -/
structure Shaper where
  layoutNew : Bool
  layoutOf : List Nat → PangoLayoutData
  copyOk : Bool

/-- enum glyph_type together with the live member of the `src` union:
GLYPH_NONE carries nothing, GLYPH_LAYOUT the layout handle, GLYPH_STR the
font handle, the copied glyph string handle and the 32-bit ascent. -/
inductive GlyphSrc where
  | GLYPH_NONE
  | GLYPH_LAYOUT (layout : PangoLayoutData)
  | GLYPH_STR (font : Nat) (str : Nat) (ascent : Nat)
  deriving DecidableEq, Repr

/-- struct kmscon_glyph.  `width` is written only by kmscon_glyph_set /
kmscon_glyph_reset and is never observed before one of them runs in the
embedded flows; it is modelled as 0 at creation. -/
structure KGlyph where
  ref : Nat
  ch : KChar
  width : Nat
  src : GlyphSrc
  deriving DecidableEq, Repr

/-- PANGO_SCALE is 1024; PANGO_PIXELS(d) is `(d + 512) >> 10` on int, i.e.
round-to-nearest (ties up) division by 1024 using an arithmetic shift
(floor division). -/
def PANGO_PIXELS (d : Int) : Int := (d + 512).fdiv 1024

/-- PANGO_PIXELS_CEIL(d) is `(d + 1023) >> 10` on int: ceiling division
by 1024. -/
def PANGO_PIXELS_CEIL (d : Int) : Int := (d + 1023).fdiv 1024

/-- Conversion of a C int value to an unsigned 32-bit field (two's
complement wrap). -/
def toU32 (x : Int) : Nat := (x % 2 ^ 32).toNat

/-- kmscon_glyph_new(out, ch): requires a non-empty key, duplicates it into
owned storage, reference count 1, type GLYPH_NONE. -/
def kmscon_glyph_new (ch : KChar) : Except Err KGlyph :=
  if ch.len = 0 then Except.error Err.EINVAL
  else
    match kmscon_char_dup true true ch with
    | Except.error e => Except.error e
    | Except.ok c =>
      Except.ok { ref := 1, ch := c, width := 0, src := GlyphSrc.GLYPH_NONE }

/-- kmscon_glyph_reset: release the payload, type back to GLYPH_NONE,
width 0. -/
def kmscon_glyph_reset (glyph : KGlyph) : KGlyph :=
  { glyph with src := GlyphSrc.GLYPH_NONE, width := 0 }

/-- The result glyph on the GLYPH_LAYOUT path of kmscon_glyph_set:
reset the payload, store the layout, set the plain-rounded width. -/
def glyph_set_layout (glyph : KGlyph) (L : PangoLayoutData) : KGlyph :=
  { (kmscon_glyph_reset glyph) with
    src := GlyphSrc.GLYPH_LAYOUT L,
    width := toU32 (PANGO_PIXELS L.widthUnits) }

/-- The result glyph on the GLYPH_STR path of kmscon_glyph_set: reset the
payload, store the copied glyph string, the run's font and the
ceiling-rounded baseline as ascent, set the plain-rounded width. -/
def glyph_set_str (glyph : KGlyph) (L : PangoLayoutData) (run : PangoRun) : KGlyph :=
  { (kmscon_glyph_reset glyph) with
    src := GlyphSrc.GLYPH_STR run.font run.glyphs (toU32 (PANGO_PIXELS_CEIL L.baseline)),
    width := toU32 (PANGO_PIXELS L.widthUnits) }

/-- Run-list dispatch of kmscon_glyph_set: a single run takes the
glyph-string path (after `pango_glyph_string_copy`, -ENOMEM on copy
failure); an empty or multi-run list takes the layout path (the source's
`!line->runs || line->runs->next`). -/
def glyph_set_runs (sh : Shaper) (glyph : KGlyph) (L : PangoLayoutData) :
    List PangoRun → Except Err KGlyph
  | [run] =>
      if sh.copyOk = false then Except.error Err.ENOMEM
      else Except.ok (glyph_set_str glyph L run)
  | _ => Except.ok (glyph_set_layout glyph L)

/-- Line dispatch of kmscon_glyph_set: no line 0 takes the layout path
(the source's `!line`); otherwise dispatch on the line's runs. -/
def glyph_set_line (sh : Shaper) (glyph : KGlyph) (L : PangoLayoutData) :
    Option PangoLine → Except Err KGlyph
  | Option.none => Except.ok (glyph_set_layout glyph L)
  | Option.some line => glyph_set_runs sh glyph L line.runs

/-- kmscon_glyph_set(glyph, font): lay the owned key's bytes out in the
shaping context.  If `pango_layout_new` fails, return -EINVAL; otherwise
dispatch on line 0 of the produced layout and its runs. -/
def kmscon_glyph_set (sh : Shaper) (glyph : KGlyph) : Except Err KGlyph :=
  if sh.layoutNew = false then Except.error Err.EINVAL
  else
    glyph_set_line sh glyph (sh.layoutOf (charView glyph.ch))
      (sh.layoutOf (charView glyph.ch)).line0

/-- A shaping engine whose layout creation fails (`pango_layout_new`
returns NULL). -/
def shNoLayout : Shaper :=
  { layoutNew := false,
    layoutOf := fun _ => { widthUnits := 0, baseline := 0, line0 := Option.none },
    copyOk := true }

/-- A glyph for the one-byte key "A", not yet shaped. -/
def glyphA : KGlyph :=
  { ref := 1, ch := { buf := [65], size := 1, len := 1 }, width := 0,
    src := GlyphSrc.GLYPH_NONE }

/-- C4 counterexample: when the shaping engine cannot produce a layout at
all, kmscon_glyph_set fails with -EINVAL (InvalidArgument), not with the
-EFAULT that the spec's ShapingFailure class denotes elsewhere (the zero
usable glyphs case in measure_width). -/
theorem C4_counterexample :
    kmscon_glyph_set shNoLayout glyphA = Except.error InvalidArgument ∧
    kmscon_glyph_set shNoLayout glyphA ≠ Except.error ShapingFailure := by
  refine ⟨rfl, ?_⟩
  decide

/-- C4 amended: if the shaping engine cannot produce a layout at all,
kmscon_glyph_set fails with InvalidArgument (-EINVAL). -/
theorem C4_no_layout_fails_invalid_argument (sh : Shaper) (g : KGlyph)
    (h : sh.layoutNew = false) :
    kmscon_glyph_set sh g = Except.error InvalidArgument := by
  unfold kmscon_glyph_set
  rw [h, if_pos rfl]
  rfl

/-- Witness for the amended C4. -/
theorem C4_no_layout_fails_invalid_argument_witness :
    kmscon_glyph_set shNoLayout glyphA = Except.error InvalidArgument :=
  C4_no_layout_fails_invalid_argument shNoLayout glyphA rfl

/-- C6: for a glyph whose shape succeeds, a shaped line with exactly one run
yields the GLYPH_STR variant carrying the run's glyph positions, the run's
font handle and the ceiling-rounded baseline as ascent; a missing line, a
zero-run line, or a multi-run line yields the GLYPH_LAYOUT variant carrying
the layout; in both cases the width is the plain-rounded (nearest, not
ceiling) extents width.  The last conjunct pins down the two roundings:
PANGO_PIXELS_CEIL is ceiling division by 1024 and PANGO_PIXELS lands within
half a pixel of the exact value. -/
theorem C6_glyph_set_variants (sh : Shaper) (glyph : KGlyph)
    (hnew : sh.layoutNew = true) :
    (∀ line run, (sh.layoutOf (charView glyph.ch)).line0 = Option.some line →
      line.runs = [run] → sh.copyOk = true →
      kmscon_glyph_set sh glyph = Except.ok { glyph with
        src := GlyphSrc.GLYPH_STR run.font run.glyphs
                 (toU32 (PANGO_PIXELS_CEIL (sh.layoutOf (charView glyph.ch)).baseline)),
        width := toU32 (PANGO_PIXELS (sh.layoutOf (charView glyph.ch)).widthUnits) }) ∧
    (((sh.layoutOf (charView glyph.ch)).line0 = Option.none ∨
      (∃ line, (sh.layoutOf (charView glyph.ch)).line0 = Option.some line ∧
        line.runs.length ≠ 1)) →
      kmscon_glyph_set sh glyph = Except.ok { glyph with
        src := GlyphSrc.GLYPH_LAYOUT (sh.layoutOf (charView glyph.ch)),
        width := toU32 (PANGO_PIXELS (sh.layoutOf (charView glyph.ch)).widthUnits) }) ∧
    (∀ d : Int,
      (d ≤ 1024 * PANGO_PIXELS_CEIL d ∧ 1024 * PANGO_PIXELS_CEIL d < d + 1024) ∧
      (d - 512 ≤ 1024 * PANGO_PIXELS d ∧ 1024 * PANGO_PIXELS d ≤ d + 512)) := by
  have hcond : ¬ (sh.layoutNew = false) := by rw [hnew]; simp
  refine ⟨?_, ?_, ?_⟩
  · intro line run hline hruns hcopy
    unfold kmscon_glyph_set
    rw [if_neg hcond, hline]
    simp only [glyph_set_line]
    rw [hruns]
    simp only [glyph_set_runs]
    rw [hcopy, if_neg (by simp : ¬ (true = false))]
    rfl
  · intro hother
    rcases hother with hline | ⟨line, hline, hlen⟩
    · unfold kmscon_glyph_set
      rw [if_neg hcond, hline]
      rfl
    · unfold kmscon_glyph_set
      rw [if_neg hcond, hline]
      simp only [glyph_set_line]
      rcases hr : line.runs with _ | ⟨run1, _ | ⟨run2, rest⟩⟩
      · rfl
      · rw [hr] at hlen
        simp at hlen
      · rfl
  · intro d
    constructor
    · unfold PANGO_PIXELS_CEIL
      rw [Int.fdiv_eq_ediv _ (by norm_num)]
      constructor <;> omega
    · unfold PANGO_PIXELS
      rw [Int.fdiv_eq_ediv _ (by norm_num)]
      constructor <;> omega

/-- A shaping engine returning a single-run line for every content, with
extents width 2048 pango units and baseline 1500 pango units. -/
def shSingleRun : Shaper :=
  { layoutNew := true,
    layoutOf := fun _ =>
      { widthUnits := 2048, baseline := 1500,
        line0 := Option.some { runs := [{ glyphs := 7, font := 3 }] } },
    copyOk := true }

/-- Witness for C6 on a concrete single-run shaping of the key "A":
ascent is the ceiling 2 of 1500/1024, width the rounded 2 of 2048/1024. -/
theorem C6_glyph_set_variants_witness :
    kmscon_glyph_set shSingleRun glyphA = Except.ok { glyphA with
      src := GlyphSrc.GLYPH_STR 3 7
               (toU32 (PANGO_PIXELS_CEIL (shSingleRun.layoutOf (charView glyphA.ch)).baseline)),
      width := toU32 (PANGO_PIXELS (shSingleRun.layoutOf (charView glyphA.ch)).widthUnits) } :=
  (C6_glyph_set_variants shSingleRun glyphA rfl).1
    { runs := [{ glyphs := 7, font := 3 }] } { glyphs := 7, font := 3 }
    rfl rfl rfl

/-- struct kmscon_font (the GlyphCache): reference count, derived average
width, requested height, and the glyph hash table.  The table is modelled
as an association list `glyphs` from owned key buffers to indices into the
identity-giving glyph store `store`: two map entries carrying the same
index denote the same `struct kmscon_glyph *`, and a glyph's reference
count lives in the store. -/
structure KFont where
  ref : Nat
  width : Nat
  height : Nat
  glyphs : List (KChar × Nat)
  store : List KGlyph
  deriving DecidableEq, Repr

/-- Placeholder glyph used by the total indexing function (never reached
at a valid index). -/
def defGlyph : KGlyph :=
  { ref := 0, ch := { buf := [], size := 0, len := 0 }, width := 0,
    src := GlyphSrc.GLYPH_NONE }

/-- The glyph object at index `i` of the font's store. -/
def getG (font : KFont) (i : Nat) : KGlyph := font.store.getD i defGlyph

/-- kmscon_glyph_ref applied to the glyph at index `i`. -/
def refAt (font : KFont) (i : Nat) : KFont :=
  { font with store := font.store.set i ({ getG font i with ref := (getG font i).ref + 1 }) }

/-- kmscon_glyph_unref applied to the glyph at index `i`: a count of 0 is
left alone (double release is a no-op); otherwise the count drops by one.
In every embedded flow the cache still holds a reference afterwards, so the
free-at-zero branch is never taken. -/
def unrefAt (font : KFont) (i : Nat) : KFont :=
  let g := getG font i
  let g2 : KGlyph := { g with ref := if g.ref = 0 then 0 else g.ref - 1 }
  { font with store := font.store.set i g2 }

/-- kmscon_font_lookup(font, key, out): g_hash_table_lookup finds an entry
whose key is kmscon_char_equal to `key` (the hash is consistent with that
equality, so the table behaves as an association container under
kmscon_char_equal).  On a hit, take a new reference and return the glyph.
On a miss, duplicate the key for map ownership, create a glyph from the
key, shape it, insert (owned key, glyph), then take a new reference and
return it; any failure on the way frees the partial allocations, leaves
the map untouched and propagates the error.  Returns the result code and
the post-state of the font. -/
def kmscon_font_lookup (sh : Shaper) (font : KFont) (key : KChar) :
    Except Err Nat × KFont :=
  match font.glyphs.find? (fun e => kmscon_char_equal e.1 key) with
  | Option.some e => (Except.ok e.2, refAt font e.2)
  | Option.none =>
    match kmscon_char_dup true true key with
    | Except.error e => (Except.error e, font)
    | Except.ok ch =>
      match kmscon_glyph_new key with
      | Except.error e => (Except.error e, font)
      | Except.ok glyph =>
        match kmscon_glyph_set sh glyph with
        | Except.error e => (Except.error e, font)
        | Except.ok glyph2 =>
          let i := font.store.length
          let f2 : KFont :=
            { font with glyphs := font.glyphs ++ [(ch, i)], store := font.store ++ [glyph2] }
          (Except.ok i, refAt f2 i)

/-- Drawing commands issued against the caller-supplied cairo context. -/
inductive DrawCmd where
  | moveTo (x y : Nat)
  | showLayout (layout : PangoLayoutData)
  | showGlyphString (font : Nat) (str : Nat)
  deriving DecidableEq, Repr

/-- The dispatch inside kmscon_font_draw: the commands issued for each
glyph type, and the result code the switch assigns to `ret`
(`-EFAULT` in the `default:` case, 0 otherwise). -/
def glyph_dispatch (glyph : KGlyph) (x y : Nat) : Except Err (List DrawCmd) :=
  match glyph.src with
  | GlyphSrc.GLYPH_LAYOUT layout =>
      Except.ok [DrawCmd.moveTo x y, DrawCmd.showLayout layout]
  | GlyphSrc.GLYPH_STR font str ascent =>
      Except.ok [DrawCmd.moveTo x ((y + ascent) % 2 ^ 32), DrawCmd.showGlyphString font str]
  | GlyphSrc.GLYPH_NONE => Except.error Err.EFAULT

/-- kmscon_font_draw(font, ch, cr, x, y): look the key up (propagating a
lookup failure), dispatch on the glyph's type, release the glyph reference
obtained from the lookup — and then return 0 unconditionally: the final
statement of the source is `return 0;`, so the `ret = -EFAULT` assigned in
the `default:` dispatch case is discarded (no drawing commands are issued
there, but the caller sees success). -/
def kmscon_font_draw (sh : Shaper) (font : KFont) (ch : KChar) (x y : Nat) :
    Except Err (List DrawCmd) × KFont :=
  match kmscon_font_lookup sh font ch with
  | (Except.error e, f2) => (Except.error e, f2)
  | (Except.ok i, f2) =>
    let cmds :=
      match glyph_dispatch (getG f2 i) x y with
      | Except.ok cs => cs
      | Except.error _ => []
    (Except.ok cmds, unrefAt f2 i)

/-- A one-byte key buffer holding "A". -/
def keyA : KChar := { buf := [65], size := 1, len := 1 }

/-- A cache state whose resident glyph for "A" has type GLYPH_NONE (the
state the claim's Unset dispatch case speaks about); the cache holds its
one reference. -/
def fontUnset : KFont :=
  { ref := 1, width := 8, height := 16,
    glyphs := [(keyA, 0)],
    store := [{ ref := 1, ch := keyA, width := 0, src := GlyphSrc.GLYPH_NONE }] }

/-- Any shaper (the hit path of draw never consults it). -/
def shLayoutConst : Shaper :=
  { layoutNew := true,
    layoutOf := fun _ => { widthUnits := 1024, baseline := 0, line0 := Option.none },
    copyOk := true }

/-- C1 is a code bug: dispatching draw on a glyph whose type is GLYPH_NONE
sets `ret = -EFAULT` (UnsupportedState) as the claim says, and the glyph
reference taken by the lookup is released (the font returns to its exact
pre-draw state) — but the function then executes `return 0;`, so the
caller sees success instead of the UnsupportedState failure. -/
theorem C1_draw_unset_returns_success :
    glyph_dispatch (getG fontUnset 0) 0 0 = Except.error UnsupportedState ∧
    kmscon_font_draw shLayoutConst fontUnset keyA 0 0 = (Except.ok [], fontUnset) := by
  refine ⟨rfl, ?_⟩
  decide

theorem getD_append_self {α : Type} (l : List α) (a d : α) :
    (l ++ [a]).getD l.length d = a := by
  rw [List.getD_eq_getElem?_getD, List.getElem?_append_right (Nat.le_refl _)]
  simp

theorem getD_set_self {α : Type} (l : List α) (i : Nat) (a d : α) (h : i < l.length) :
    (l.set i a).getD i d = a := by
  rw [List.getD_eq_getElem?_getD, List.getElem?_set]
  simp [h]

theorem kmscon_char_dup_true_isOk (orig : KChar) :
    ∃ d, kmscon_char_dup true true orig = Except.ok d := by
  unfold kmscon_char_dup new_char kmscon_char_set_u8
  simp only [if_neg (by simp : ¬ (true = false))]
  by_cases h : new_char_size orig.size < (charView orig).length
  · rw [if_pos h]
    exact ⟨_, rfl⟩
  · rw [if_neg h]
    exact ⟨_, rfl⟩

/-- C5: for every cache whose resident keys are non-empty (an invariant of
every reachable cache, since insertion requires kmscon_glyph_new to accept
the key), lookup and draw with an empty key fail with InvalidArgument and
leave the font — in particular its map — exactly unchanged. -/
theorem C5_empty_key_invalid_argument (sh : Shaper) (font : KFont) (key : KChar)
    (x y : Nat) (hk : key.len = 0)
    (hinv : ∀ e ∈ font.glyphs, e.1.len ≠ 0) :
    kmscon_font_lookup sh font key = (Except.error InvalidArgument, font) ∧
    kmscon_font_draw sh font key x y = (Except.error InvalidArgument, font) := by
  have hfind : font.glyphs.find? (fun e => kmscon_char_equal e.1 key) = Option.none := by
    rw [List.find?_eq_none]
    intro e he
    have hne := hinv e he
    unfold kmscon_char_equal
    rw [hk, if_neg hne]
    simp
  obtain ⟨d, hd⟩ := kmscon_char_dup_true_isOk key
  have hlk : kmscon_font_lookup sh font key = (Except.error InvalidArgument, font) := by
    unfold kmscon_font_lookup
    rw [hfind, hd]
    unfold kmscon_glyph_new
    rw [if_pos hk]
    rfl
  refine ⟨hlk, ?_⟩
  unfold kmscon_font_draw
  rw [hlk]

/-- The empty key buffer. -/
def keyEmpty : KChar := { buf := [], size := 0, len := 0 }

/-- Witness for C5: empty key against a one-entry cache. -/
theorem C5_empty_key_invalid_argument_witness :
    kmscon_font_lookup shLayoutConst fontUnset keyEmpty =
      (Except.error InvalidArgument, fontUnset) ∧
    kmscon_font_draw shLayoutConst fontUnset keyEmpty 0 0 =
      (Except.error InvalidArgument, fontUnset) :=
  C5_empty_key_invalid_argument shLayoutConst fontUnset keyEmpty 0 0 rfl (by decide)

theorem glyph_set_runs_ref_ch (sh : Shaper) (g : KGlyph) (L : PangoLayoutData) :
    ∀ (rs : List PangoRun) (g2 : KGlyph),
      glyph_set_runs sh g L rs = Except.ok g2 → g2.ref = g.ref ∧ g2.ch = g.ch := by
  intro rs g2 h
  match rs with
  | [] =>
    simp only [glyph_set_runs] at h
    cases h
    exact ⟨rfl, rfl⟩
  | [run] =>
    simp only [glyph_set_runs] at h
    by_cases hc : sh.copyOk = false
    · rw [if_pos hc] at h
      cases h
    · rw [if_neg hc] at h
      cases h
      exact ⟨rfl, rfl⟩
  | r1 :: r2 :: rest =>
    simp only [glyph_set_runs] at h
    cases h
    exact ⟨rfl, rfl⟩

theorem kmscon_glyph_set_ref_ch (sh : Shaper) (g g2 : KGlyph)
    (h : kmscon_glyph_set sh g = Except.ok g2) : g2.ref = g.ref ∧ g2.ch = g.ch := by
  unfold kmscon_glyph_set at h
  by_cases hn : sh.layoutNew = false
  · rw [if_pos hn] at h
    cases h
  · rw [if_neg hn] at h
    cases hline : (sh.layoutOf (charView g.ch)).line0 with
    | none =>
      rw [hline] at h
      simp only [glyph_set_line] at h
      cases h
      exact ⟨rfl, rfl⟩
    | some line =>
      rw [hline] at h
      simp only [glyph_set_line] at h
      exact glyph_set_runs_ref_ch sh g _ line.runs g2 h

/-- The cache state right after the miss path of kmscon_font_lookup inserts
the owned key and the shaped glyph (before the final glyph_ref). -/
def insertGlyph (font : KFont) (ch : KChar) (g : KGlyph) : KFont :=
  { font with glyphs := font.glyphs ++ [(ch, font.store.length)], store := font.store ++ [g] }

theorem getG_refAt (f : KFont) (i : Nat) (h : i < f.store.length) :
    getG (refAt f i) i = { getG f i with ref := (getG f i).ref + 1 } := by
  unfold refAt getG
  exact getD_set_self _ _ _ _ h

/-- C7: a successful lookup yields the caller one fresh reference while the
cache's map holds exactly one reference.  On a miss (no content-equal key
resides in the map, whose indices all point into the store) the glyph
inserted for the key has reference count 2 when lookup returns — one held
by the map entry (of which there is exactly one) and one by the caller —
and a second lookup with a content-equal but distinct key buffer returns
the same glyph object (the same store index) with the count incremented
once more, to 3. -/
theorem C7_lookup_reference_counts (sh : Shaper) (font : KFont) (key key2 : KChar)
    (hwf : WFChar key) (hk : ¬ key.len = 0)
    (hmiss : font.glyphs.find? (fun e => kmscon_char_equal e.1 key) = Option.none)
    (hinv : ∀ e ∈ font.glyphs, e.2 < font.store.length)
    (hk2len : key2.len = key.len) (hk2view : charView key2 = charView key) :
    ∀ g2 : KGlyph,
      kmscon_glyph_set sh
          { ref := 1, ch := dupChar key, width := 0, src := GlyphSrc.GLYPH_NONE } =
        Except.ok g2 →
      ∃ f1 : KFont,
        kmscon_font_lookup sh font key = (Except.ok font.store.length, f1) ∧
        (getG f1 font.store.length).ref = 2 ∧
        (f1.glyphs.filter (fun e => e.2 == font.store.length)).length = 1 ∧
        (kmscon_font_lookup sh f1 key2).1 = Except.ok font.store.length ∧
        (getG ((kmscon_font_lookup sh f1 key2).2) font.store.length).ref = 3 := by
  intro g2 hset
  have hdup : kmscon_char_dup true true key = Except.ok (dupChar key) :=
    kmscon_char_dup_eq key hwf
  have hgn : kmscon_glyph_new key =
      Except.ok { ref := 1, ch := dupChar key, width := 0, src := GlyphSrc.GLYPH_NONE } := by
    unfold kmscon_glyph_new
    rw [if_neg hk, hdup]
  have hg2 : g2.ref = 1 ∧ g2.ch = dupChar key := by
    have h := kmscon_glyph_set_ref_ch sh _ g2 hset
    exact h
  have hlk1 : kmscon_font_lookup sh font key =
      (Except.ok font.store.length,
       refAt (insertGlyph font (dupChar key) g2) font.store.length) := by
    unfold kmscon_font_lookup
    simp only [hmiss, hdup, hgn, hset]
    rfl
  have hstore2 : (insertGlyph font (dupChar key) g2).store.length = font.store.length + 1 := by
    show (font.store ++ [g2]).length = _
    rw [List.length_append]
    rfl
  have hget2 : getG (insertGlyph font (dupChar key) g2) font.store.length = g2 := by
    show (font.store ++ [g2]).getD font.store.length defGlyph = g2
    exact getD_append_self font.store g2 defGlyph
  have hgetf1 : getG (refAt (insertGlyph font (dupChar key) g2) font.store.length)
      font.store.length = { g2 with ref := g2.ref + 1 } := by
    rw [getG_refAt _ _ (by omega), hget2]
  have hnone2 : font.glyphs.find? (fun e => kmscon_char_equal e.1 key2) = Option.none := by
    rw [List.find?_eq_none] at hmiss ⊢
    intro e he
    rw [kmscon_char_equal_congr_right e.1 key2 key hk2len hk2view]
    exact hmiss e he
  have hp : kmscon_char_equal (dupChar key) key2 = true := by
    rw [kmscon_char_equal_iff]
    constructor
    · rw [dupChar_len, hk2len]
    · rw [charView_dupChar key hwf, hk2view]
  have hfind2 : (refAt (insertGlyph font (dupChar key) g2) font.store.length).glyphs.find?
      (fun e => kmscon_char_equal e.1 key2) =
      Option.some (dupChar key, font.store.length) := by
    show (font.glyphs ++ [(dupChar key, font.store.length)]).find?
        (fun e => kmscon_char_equal e.1 key2) = _
    rw [List.find?_append, hnone2]
    simp [List.find?, hp]
  have hlk2 : kmscon_font_lookup sh
      (refAt (insertGlyph font (dupChar key) g2) font.store.length) key2 =
      (Except.ok font.store.length,
       refAt (refAt (insertGlyph font (dupChar key) g2) font.store.length)
         font.store.length) := by
    unfold kmscon_font_lookup
    rw [hfind2]
  have hlen3 : (refAt (insertGlyph font (dupChar key) g2)
      font.store.length).store.length = font.store.length + 1 := by
    show ((insertGlyph font (dupChar key) g2).store.set _ _).length = _
    rw [List.length_set, hstore2]
  refine ⟨refAt (insertGlyph font (dupChar key) g2) font.store.length, hlk1, ?_, ?_, ?_, ?_⟩
  · rw [hgetf1]
    show g2.ref + 1 = 2
    rw [hg2.1]
  · show ((font.glyphs ++ [(dupChar key, font.store.length)]).filter
        (fun e => e.2 == font.store.length)).length = 1
    rw [List.filter_append]
    have hold : font.glyphs.filter (fun e => e.2 == font.store.length) = [] := by
      rw [List.filter_eq_nil_iff]
      intro e he
      have hlt := hinv e he
      simp only [beq_iff_eq]
      omega
    rw [hold]
    simp
  · rw [hlk2]
  · rw [hlk2]
    show (getG (refAt (refAt (insertGlyph font (dupChar key) g2) font.store.length)
        font.store.length) font.store.length).ref = 3
    rw [getG_refAt _ _ (by omega), hgetf1]
    show g2.ref + 1 + 1 = 3
    rw [hg2.1]

/-- A freshly constructed cache with no resident glyphs. -/
def fontEmpty : KFont := { ref := 1, width := 0, height := 16, glyphs := [], store := [] }

/-- A second key buffer, content-equal to keyA ("A", length 1) but a
distinct object: different allocation size and trailing allocation bytes. -/
def keyA2 : KChar := { buf := [65, 99], size := 2, len := 1 }

/-- The glyph kmscon_glyph_set produces for keyA under shLayoutConst. -/
def glyphALayout : KGlyph :=
  { ref := 1, ch := dupChar keyA, width := 1,
    src := GlyphSrc.GLYPH_LAYOUT { widthUnits := 1024, baseline := 0, line0 := Option.none } }

/-- Witness for C7: miss on an empty cache with key "A", then a hit with a
content-equal but distinct key buffer. -/
theorem C7_lookup_reference_counts_witness :
    ∃ f1 : KFont,
      kmscon_font_lookup shLayoutConst fontEmpty keyA =
        (Except.ok fontEmpty.store.length, f1) ∧
      (getG f1 fontEmpty.store.length).ref = 2 ∧
      (f1.glyphs.filter (fun e => e.2 == fontEmpty.store.length)).length = 1 ∧
      (kmscon_font_lookup shLayoutConst f1 keyA2).1 = Except.ok fontEmpty.store.length ∧
      (getG ((kmscon_font_lookup shLayoutConst f1 keyA2).2) fontEmpty.store.length).ref = 3 :=
  C7_lookup_reference_counts shLayoutConst fontEmpty keyA keyA2 (by decide) (by decide)
    (by decide) (by decide) (by decide) (by decide) glyphALayout (by decide)

/-- The loop state of measure_width: the probe character buffer, the font
(whose cache fills up as a side effect), the accumulator `width` and the
counter `num`. -/
structure MState where
  ch : KChar
  font : KFont
  width : Nat
  num : Nat
  deriving DecidableEq, Repr

/-- One iteration of the measure_width loop for byte value `i`: set the
probe buffer to the single byte, look it up (both `continue` on failure),
and if the glyph's width is positive add it to the 32-bit accumulator and
count it; finally release the looked-up glyph. -/
def measure_step (sh : Shaper) (st : MState) (i : Nat) : MState :=
  match kmscon_char_set_u8 true st.ch [i] with
  | (Except.error _, ch2) => { st with ch := ch2 }
  | (Except.ok _, ch2) =>
    match kmscon_font_lookup sh st.font ch2 with
    | (Except.error _, f2) => { st with ch := ch2, font := f2 }
    | (Except.ok j, f2) =>
      if (getG f2 j).width > 0 then
        { ch := ch2, font := unrefAt f2 j,
          width := (st.width + (getG f2 j).width) % 2 ^ 32, num := st.num + 1 }
      else
        { ch := ch2, font := unrefAt f2 j, width := st.width, num := st.num }

/-- measure_width(font): allocate a probe buffer, run the loop over byte
values 0..126, fail with -EFAULT if no probe produced a positive width, and
otherwise store the integer average `width / num`.  The local accumulator
`width` is NOT initialized by the source (`unsigned int i, num, width;`
with only `num = 0` following); `w0` models the indeterminate value it
starts from. -/
def measure_width (sh : Shaper) (w0 : Nat) (font : KFont) : Except Err KFont :=
  match kmscon_char_new true with
  | Except.error e => Except.error e
  | Except.ok ch0 =>
    let st := (List.range 127).foldl (measure_step sh)
      { ch := ch0, font := font, width := w0, num := 0 }
    if st.num = 0 then Except.error Err.EFAULT
    else Except.ok { st.font with width := st.width / st.num }

/-- The average width a measure_width result stored (0 if it failed). -/
def storedWidth (r : Except Err KFont) : Nat :=
  match r with
  | Except.ok f => f.width
  | Except.error _ => 0

set_option maxRecDepth 100000 in
/-- C2 is a code bug: the claim (and the spec's stated contract) is
"accumulator starting at zero", but the source never initializes the local
accumulator `width`, so the stored average depends on the garbage initial
value: with every probe shaping to width 1 (127 usable probes), a zero
start stores 127/127 = 1 — the claimed sum ÷ count — while a start of 1270
stores (1270+127)/127 = 11. -/
theorem C2_uninitialized_accumulator :
    storedWidth (measure_width shLayoutConst 0 fontEmpty) = 1 ∧
    storedWidth (measure_width shLayoutConst 1270 fontEmpty) = 11 ∧
    (1 : Nat) ≠ 11 :=
  ⟨by decide, by decide, by decide⟩
